import Mathlib

/-!
Verification of the incidentist report generator (package report, main).

The development shallowly embeds the correlation and report-assembly core:

* Go time instants are modelled as integers counting nanoseconds relative to
  the Go zero time value (January 1, year 1 UTC); the methods After and
  Before are strict comparisons on these integers, and the zero value of
  time.Time is the integer 0.
* The page and incident records mirror the struct types in the source.
  Go stores pages in a slice of pointers; an incident's linked pages
  (field pages, of Go type a slice of page pointers) are modelled as the
  indices of the linked pages in the fetched page list, which is the
  standard store-based reading of pointer slices.
* Stateful loops are embedded as folds over the ranges the source iterates.
-/

namespace Incidentist

/-- One nanosecond-resolution Go duration of fifteen minutes
(15 multiplied by time.Minute, which is 60e9 nanoseconds). -/
def fifteenMinutes : Int := 15 * 60 * 1000000000

/-- The Go zero value of time.Time (January 1, year 1 UTC), the origin of the
integer timeline used by this model. -/
def goZeroTime : Int := 0

/-- Notes attached to a page (struct pageNote, fetch_pages.go). -/
structure PageNote where
  content : String
  userName : String
  userEmail : String
deriving DecidableEq

/-- A PagerDuty page (struct page, fetch_pages.go). The field incidentIDs is
filled in by the correlation loop in Generate. -/
structure Page where
  title : String
  link : String
  createdAt : Int
  incidentIDs : List String
  responders : List String
  notes : List PageNote
deriving DecidableEq

/-- A Datadog incident (struct incident, search_incidents.go). The field
pages is filled in by the correlation loop in Generate; it holds the indices
of the linked pages in the fetched page list (modelling the Go slice of
page pointers). The customer impact duration is kept in nanoseconds. -/
structure Incident where
  id : String
  title : String
  link : String
  sev : String
  commander : String
  commanderEmail : String
  rootCause : String
  summary : String
  customerImpactScope : String
  customerImpactDuration : Int
  createdAt : Int
  resolvedAt : Int
  pages : List Nat
deriving DecidableEq

/-- The resolution timestamp assigned by fetchIncidents
(search_incidents.go): the incident record is created with the zero value
and only overwritten when the source's Resolved field is set and non-nil. -/
def resolvedAtOf (resolved : Option Int) : Int :=
  match resolved with
  | some t => t
  | none => goZeroTime

/-- The correlation condition of Generate (generate.go):
p.createdAt.After(i.createdAt.Add(-15 * time.Minute)) and
p.createdAt.Before(i.resolvedAt). Both comparisons are strict. -/
def linkCond (p : Page) (i : Incident) : Bool :=
  decide (i.createdAt + (-fifteenMinutes) < p.createdAt) &&
  decide (p.createdAt < i.resolvedAt)

/-- One iteration of the correlation loop body for page index pj and
incident index ik: when the window condition holds, the page is appended to
the incident's pages (as a pointer, i.e. its index) and the incident's id is
appended to the page's incidentIDs. -/
def linkStep (pj : Nat) (st : List Page × List Incident) (ik : Nat) :
    List Page × List Incident :=
  match st.1[pj]?, st.2[ik]? with
  | some p, some i =>
    if linkCond p i then
      (st.1.set pj { p with incidentIDs := p.incidentIDs ++ [i.id] },
       st.2.set ik { i with pages := i.pages ++ [pj] })
    else st
  | _, _ => st

/-- The inner loop of the correlation nest: for a fixed page index, iterate
over all incidents in order. -/
def innerLoop (pj : Nat) (st : List Page × List Incident) :
    List Page × List Incident :=
  (List.range st.2.length).foldl (linkStep pj) st

/-- The correlation loop of Generate (generate.go): for each page, for each
incident, link when the window condition holds. -/
def correlate (ps : List Page) (is : List Incident) :
    List Page × List Incident :=
  (List.range ps.length).foldl (fun st pj => innerLoop pj st) (ps, is)

/-- The final state of a page after the correlation loop: its incidentIDs
are extended with the ids of the incidents whose window it falls in, in
incident order. -/
def pageAfter (is : List Incident) (p : Page) : Page :=
  { p with incidentIDs :=
      p.incidentIDs ++ (is.filter (fun i => linkCond p i)).map (fun i => i.id) }

/-- Whether the page at index j of the fetched page list falls in the window
of incident i. -/
def matchesAt (ps : List Page) (i : Incident) (j : Nat) : Bool :=
  match ps[j]? with
  | some p => linkCond p i
  | none => false

/-- The final state of an incident after the correlation loop: its pages are
extended with the indices of the pages that fall in its window, in page
(fetch) order. -/
def incidentAfter (ps : List Page) (i : Incident) : Incident :=
  { i with pages := i.pages ++ (List.range ps.length).filter (matchesAt ps i) }

/-! Closed form of the correlation loop. -/

theorem set_of_getElem?_eq {α : Type _} {l : List α} {n : Nat} {a : α}
    (h : l[n]? = some a) : l.set n a = l := by
  induction l generalizing n with
  | nil => simp at h
  | cons x xs ih =>
    cases n with
    | zero => simp_all
    | succ m =>
      simp only [List.getElem?_cons_succ] at h
      simp [ih h]

theorem linkCond_set_ids (p : Page) (x : List String) (i : Incident) :
    linkCond { p with incidentIDs := x } i = linkCond p i := rfl

theorem linkCond_set_pages (p : Page) (i : Incident) (x : List Nat) :
    linkCond p { i with pages := x } = linkCond p i := rfl

theorem linkStep_eq (pj ik : Nat) (qs : List Page) (js : List Incident)
    (p : Page) (i : Incident) (hp : qs[pj]? = some p) (hi : js[ik]? = some i) :
    linkStep pj (qs, js) ik =
      if linkCond p i then
        (qs.set pj { p with incidentIDs := p.incidentIDs ++ [i.id] },
         js.set ik { i with pages := i.pages ++ [pj] })
      else (qs, js) := by
  simp only [linkStep, hp, hi]

theorem innerFold_spec (pj : Nat) (qs : List Page) (js : List Incident) (p : Page)
    (hp : qs[pj]? = some p) :
    ∀ t, t ≤ js.length →
      (List.range t).foldl (linkStep pj) (qs, js) =
        (qs.set pj { p with incidentIDs := p.incidentIDs ++
            ((js.take t).filter (fun i => linkCond p i)).map (fun i => i.id) },
         ((js.take t).map
            (fun i => if linkCond p i then { i with pages := i.pages ++ [pj] } else i))
           ++ js.drop t) := by
  intro t
  induction t with
  | zero =>
    intro _
    simp only [List.range_zero, List.foldl_nil, List.take_zero, List.filter_nil,
      List.map_nil, List.append_nil, List.nil_append, List.drop_zero]
    show (qs, js) = (qs.set pj p, js)
    rw [set_of_getElem?_eq hp]
  | succ t ih =>
    intro ht
    have htl : t < js.length := ht
    have hqlen : pj < qs.length := by
      rcases List.getElem?_eq_some.mp hp with ⟨h, _⟩
      exact h
    have hA : ((js.take t).map
        (fun i => if linkCond p i then { i with pages := i.pages ++ [pj] } else i)).length = t := by
      simp [Nat.min_eq_left (Nat.le_of_lt htl)]
    rw [List.range_succ, List.foldl_append, ih (Nat.le_of_lt htl),
      List.foldl_cons, List.foldl_nil, List.drop_eq_getElem_cons htl]
    have hX : (qs.set pj { p with incidentIDs := p.incidentIDs ++
        ((js.take t).filter (fun i => linkCond p i)).map (fun i => i.id) })[pj]? =
        some { p with incidentIDs := p.incidentIDs ++
          ((js.take t).filter (fun i => linkCond p i)).map (fun i => i.id) } := by
      simp [hqlen]
    have hY : (((js.take t).map
        (fun i => if linkCond p i then { i with pages := i.pages ++ [pj] } else i))
          ++ js[t] :: js.drop (t+1))[t]? = some js[t] := by
      rw [List.getElem?_append_right hA.le, hA, Nat.sub_self]
      simp
    rw [linkStep_eq pj t _ _ _ _ hX hY, linkCond_set_ids]
    have hkt : js.take (t+1) = js.take t ++ [js[t]] := by
      rw [List.take_succ, List.getElem?_eq_getElem htl]
      rfl
    cases hc : linkCond p js[t] with
    | true =>
      rw [if_pos rfl]
      have hM : ((js.take (t+1)).filter (fun i => linkCond p i)).map (fun i => i.id)
          = ((js.take t).filter (fun i => linkCond p i)).map (fun i => i.id)
            ++ [js[t].id] := by
        rw [hkt, List.filter_append, List.map_append]
        simp [hc]
      rw [Prod.mk.injEq]
      refine ⟨?_, ?_⟩
      · show (qs.set pj _).set pj _ = qs.set pj _
        rw [List.set_set, hM, ← List.append_assoc]
      · rw [List.set_append_right _ _ hA.le, hA, Nat.sub_self,
          List.set_cons_zero, hkt, List.map_append, List.append_assoc]
        simp [hc]
    | false =>
      rw [if_neg (by simp)]
      have hM : ((js.take (t+1)).filter (fun i => linkCond p i)).map (fun i => i.id)
          = ((js.take t).filter (fun i => linkCond p i)).map (fun i => i.id) := by
        rw [hkt, List.filter_append]
        simp [hc]
      rw [Prod.mk.injEq]
      refine ⟨?_, ?_⟩
      · show qs.set pj _ = qs.set pj _
        rw [hM]
      · show (_ ++ js[t] :: js.drop (t+1) : List Incident) = _
        rw [hkt, List.map_append, List.append_assoc]
        simp [hc]

theorem innerLoop_spec (pj : Nat) (qs : List Page) (js : List Incident) (p : Page)
    (hp : qs[pj]? = some p) :
    innerLoop pj (qs, js) =
      (qs.set pj (pageAfter js p),
       js.map (fun i => if linkCond p i then { i with pages := i.pages ++ [pj] } else i)) := by
  have h := innerFold_spec pj qs js p hp js.length (Nat.le_refl _)
  simp only [List.take_length, List.drop_length, List.append_nil] at h
  exact h

theorem pageAfter_map_inc (p : Page) (is : List Incident) (g : Incident → Incident)
    (hid : ∀ i, (g i).id = i.id) (hc : ∀ i, linkCond p (g i) = linkCond p i) :
    pageAfter (is.map g) p = pageAfter is p := by
  unfold pageAfter
  have h : ((is.map g).filter (fun i => linkCond p i)).map (fun i => i.id) =
      (is.filter (fun i => linkCond p i)).map (fun i => i.id) := by
    rw [List.filter_map, List.map_map]
    have h1 : ((fun i => linkCond p i) ∘ g) = fun i => linkCond p i := funext hc
    have h2 : ((fun i : Incident => i.id) ∘ g) = fun i => i.id := funext hid
    rw [h1, h2]
  rw [h]

theorem outerFold_spec (ps : List Page) (is : List Incident) :
    ∀ t, t ≤ ps.length →
      (List.range t).foldl (fun st pj => innerLoop pj st) (ps, is) =
        ((ps.take t).map (pageAfter is) ++ ps.drop t,
         is.map (fun i =>
           { i with pages := i.pages ++ (List.range t).filter (matchesAt ps i) })) := by
  intro t
  induction t with
  | zero =>
    intro _
    simp only [List.range_zero, List.foldl_nil, List.take_zero, List.map_nil,
      List.nil_append, List.drop_zero, List.filter_nil, List.append_nil]
    show (ps, is) = (ps, is.map (fun i => i))
    rw [List.map_id']
  | succ t ih =>
    intro ht
    have htl : t < ps.length := ht
    have hA : ((ps.take t).map (pageAfter is)).length = t := by
      simp [Nat.min_eq_left (Nat.le_of_lt htl)]
    rw [List.range_succ, List.foldl_append, ih (Nat.le_of_lt htl),
      List.foldl_cons, List.foldl_nil, List.drop_eq_getElem_cons htl]
    have hQ : ((ps.take t).map (pageAfter is) ++ ps[t] :: ps.drop (t+1))[t]? =
        some ps[t] := by
      rw [List.getElem?_append_right hA.le, hA, Nat.sub_self]
      simp
    rw [innerLoop_spec t _ _ _ hQ]
    have hptk : ps.take (t+1) = ps.take t ++ [ps[t]] := by
      rw [List.take_succ, List.getElem?_eq_getElem htl]
      rfl
    rw [Prod.mk.injEq]
    refine ⟨?_, ?_⟩
    · rw [pageAfter_map_inc ps[t] is
          (fun i => { i with pages := i.pages ++ (List.range t).filter (matchesAt ps i) })
          (fun i => rfl) (fun i => rfl),
        List.set_append_right _ _ hA.le, hA, Nat.sub_self, List.set_cons_zero,
        hptk, List.map_append, List.append_assoc]
      rfl
    · rw [List.map_map]
      apply List.map_congr_left
      intro i _
      simp only [Function.comp_apply]
      rw [linkCond_set_pages]
      have hmt : matchesAt ps i t = linkCond ps[t] i := by
        unfold matchesAt
        rw [List.getElem?_eq_getElem htl]
      cases hb : linkCond ps[t] i with
      | true =>
        rw [if_pos rfl]
        have hpg : (i.pages ++ (List.range t).filter (matchesAt ps i)) ++ [t]
            = i.pages ++ (List.range t ++ [t]).filter (matchesAt ps i) := by
          simp [List.filter_append, hmt, hb, List.append_assoc]
        exact congrArg (fun l => { i with pages := l }) hpg
      | false =>
        rw [if_neg (by simp)]
        have hpg : i.pages ++ (List.range t).filter (matchesAt ps i)
            = i.pages ++ (List.range t ++ [t]).filter (matchesAt ps i) := by
          simp [List.filter_append, hmt, hb]
        exact congrArg (fun l => { i with pages := l }) hpg

/-- Closed form of the correlation loop of Generate: every page's
incidentIDs are extended with the ids of the incidents whose window it
falls in (in incident order), and every incident's pages are extended with
the indices of the pages that fall in its window (in page fetch order). -/
theorem correlate_spec (ps : List Page) (is : List Incident) :
    correlate ps is = (ps.map (pageAfter is), is.map (incidentAfter ps)) := by
  unfold correlate
  have h := outerFold_spec ps is ps.length (Nat.le_refl _)
  simp only [List.take_length, List.drop_length, List.append_nil] at h
  exact h

/-! Membership helpers over the closed form. -/

theorem mem_incidentAfter_pages (ps : List Page) (i : Incident) (j : Nat)
    (hpg : i.pages = []) :
    j ∈ (incidentAfter ps i).pages ↔
      ∃ p, ps[j]? = some p ∧ linkCond p i = true := by
  unfold incidentAfter
  simp only [hpg, List.nil_append, List.mem_filter, List.mem_range]
  constructor
  · rintro ⟨hj, hm⟩
    unfold matchesAt at hm
    cases hq : ps[j]? with
    | none => rw [hq] at hm; cases hm
    | some p => rw [hq] at hm; exact ⟨p, rfl, hm⟩
  · rintro ⟨p, hq, hc⟩
    have hj : j < ps.length := by
      rcases List.getElem?_eq_some.mp hq with ⟨h, _⟩
      exact h
    refine ⟨hj, ?_⟩
    unfold matchesAt
    rw [hq]
    exact hc

theorem mem_pageAfter_ids (is : List Incident) (p : Page) (s : String)
    (hinit : p.incidentIDs = []) :
    s ∈ (pageAfter is p).incidentIDs ↔
      ∃ i, i ∈ is ∧ linkCond p i = true ∧ i.id = s := by
  unfold pageAfter
  simp only [hinit, List.nil_append, List.mem_map, List.mem_filter]
  constructor
  · rintro ⟨i, ⟨hm, hc⟩, he⟩
    exact ⟨i, hm, hc, he⟩
  · rintro ⟨i, hm, hc, he⟩
    exact ⟨i, ⟨hm, hc⟩, he⟩

theorem correlate_snd_getElem (ps : List Page) (is : List Incident) (k : Nat)
    (i' : Incident) (hi : (correlate ps is).2[k]? = some i') :
    ∃ hk : k < is.length, i' = incidentAfter ps (is.get ⟨k, hk⟩) := by
  rw [correlate_spec] at hi
  simp only [List.getElem?_map] at hi
  cases hq : is[k]? with
  | none => rw [hq] at hi; cases hi
  | some i0 =>
    rw [hq] at hi
    rcases List.getElem?_eq_some.mp hq with ⟨hk, he⟩
    refine ⟨hk, ?_⟩
    cases hi
    rw [List.get_eq_getElem, he]

theorem correlate_fst_getElem (ps : List Page) (is : List Incident) (j : Nat)
    (p' : Page) (hp : (correlate ps is).1[j]? = some p') :
    ∃ hj : j < ps.length, p' = pageAfter is (ps.get ⟨j, hj⟩) := by
  rw [correlate_spec] at hp
  simp only [List.getElem?_map] at hp
  cases hq : ps[j]? with
  | none => rw [hq] at hp; cases hp
  | some p0 =>
    rw [hq] at hp
    rcases List.getElem?_eq_some.mp hq with ⟨hj, he⟩
    refine ⟨hj, ?_⟩
    cases hp
    rw [List.get_eq_getElem, he]

theorem linkCond_iff (p : Page) (i : Incident) :
    linkCond p i = true ↔
      (i.createdAt - fifteenMinutes < p.createdAt ∧
       p.createdAt < i.resolvedAt) := by
  unfold linkCond
  rw [Bool.and_eq_true, decide_eq_true_eq, decide_eq_true_eq,
    Int.sub_eq_add_neg]

/-! Claim C1: the correlation window is open at both ends. -/

/-- C1: after the correlation loop, page j is linked to incident k (a member
of its linked-pages collection) if and only if the page's creation time is
strictly greater than the incident's creation time minus 15 minutes and
strictly less than the incident's resolution time; both bounds are
excluded. -/
theorem correlator_links_iff_open_window (ps : List Page) (is : List Incident)
    (j k : Nat) (hj : j < ps.length) (hk : k < is.length)
    (hinit : ∀ i ∈ is, i.pages = []) (i' : Incident)
    (hi : (correlate ps is).2[k]? = some i') :
    j ∈ i'.pages ↔
      (is[k].createdAt - fifteenMinutes < ps[j].createdAt ∧
       ps[j].createdAt < is[k].resolvedAt) := by
  rcases correlate_snd_getElem ps is k i' hi with ⟨hk2, he⟩
  subst he
  rw [List.get_eq_getElem,
    mem_incidentAfter_pages ps is[k] j (hinit is[k] (List.getElem_mem hk2))]
  constructor
  · rintro ⟨p, hq, hc⟩
    rw [List.getElem?_eq_getElem hj] at hq
    cases hq
    exact (linkCond_iff _ _).mp hc
  · intro hw
    exact ⟨ps[j], List.getElem?_eq_getElem hj, (linkCond_iff _ _).mpr hw⟩

/-- Minutes of the scenario clock, in nanoseconds on the model timeline. -/
def minuteNs (m : Nat) : Int := (m : Int) * 60 * 1000000000

/-- The scenario incident of the specification: created at the clock
minute 600 (10:00:00Z) and resolved at minute 660 (11:00:00Z). -/
def scenarioIncident : Incident :=
  { id := "#incident-1", title := "db outage",
    link := "https://app.datadoghq.com/incidents/1", sev := "SEV-2",
    commander := "cmdr", commanderEmail := "cmdr@example.com",
    rootCause := "tbd", summary := "tbd", customerImpactScope := "",
    customerImpactDuration := 0,
    createdAt := minuteNs 600, resolvedAt := minuteNs 660, pages := [] }

/-- A scenario page created at the given clock minute. -/
def scenarioPage (m : Nat) : Page :=
  { title := "page", link := "https://pd.example.com/p", createdAt := minuteNs m,
    incidentIDs := [], responders := [], notes := [] }

/-- The scenario pages: 09:50:00Z (inside the window), 09:44:00Z (before the
window), 11:00:00Z (exactly the resolution time) and 09:45:00Z (exactly the
lower bound, creation minus 15 minutes). -/
def scenarioPages : List Page :=
  [scenarioPage 590, scenarioPage 584, scenarioPage 660, scenarioPage 585]

theorem correlator_links_iff_open_window_witness :
    0 ∈ (incidentAfter scenarioPages scenarioIncident).pages ∧
    ¬ 1 ∈ (incidentAfter scenarioPages scenarioIncident).pages ∧
    ¬ 2 ∈ (incidentAfter scenarioPages scenarioIncident).pages ∧
    ¬ 3 ∈ (incidentAfter scenarioPages scenarioIncident).pages := by
  have h := fun j hj => correlator_links_iff_open_window scenarioPages
    [scenarioIncident] j 0 hj (by decide) (by decide)
    (incidentAfter scenarioPages scenarioIncident)
    (by rw [correlate_spec]; rfl)
  refine ⟨(h 0 (by decide)).mpr (by decide), ?_, ?_, ?_⟩
  · intro hm
    exact absurd ((h 1 (by decide)).mp hm) (by decide)
  · intro hm
    exact absurd ((h 2 (by decide)).mp hm) (by decide)
  · intro hm
    exact absurd ((h 3 (by decide)).mp hm) (by decide)

/-! Claim C2: incidents with an absent resolution timestamp. -/

/-- C2 (amended): an incident whose resolution timestamp was left at the Go
zero value (Resolved unset or nil in the source payload) links no pages,
provided no page creation timestamp precedes the Go zero time value. -/
theorem open_incident_links_no_pages (ps : List Page) (is : List Incident)
    (k : Nat) (hk : k < is.length) (hres : is[k].resolvedAt = goZeroTime)
    (hpg : is[k].pages = [])
    (hts : ∀ p ∈ ps, goZeroTime ≤ p.createdAt)
    (i' : Incident) (hi : (correlate ps is).2[k]? = some i') :
    i'.pages = [] := by
  rcases correlate_snd_getElem ps is k i' hi with ⟨hk2, he⟩
  subst he
  rw [List.get_eq_getElem]
  unfold incidentAfter
  simp only [hpg, List.nil_append]
  rw [List.filter_eq_nil_iff]
  intro j _
  unfold matchesAt
  cases hq : ps[j]? with
  | none => simp
  | some p =>
    simp only
    intro hc
    have h2 := ((linkCond_iff p is[k]).mp hc).2
    rw [hres] at h2
    have h3 := hts p (List.getElem?_mem hq)
    omega

/-- An incident whose source Resolved field is absent: the resolution
timestamp is the value resolvedAtOf none, i.e. the zero time value. -/
def unresolvedIncident : Incident :=
  { id := "#incident-7", title := "still open",
    link := "https://app.datadoghq.com/incidents/7", sev := "SEV-3",
    commander := "cmdr", commanderEmail := "cmdr@example.com",
    rootCause := "", summary := "", customerImpactScope := "",
    customerImpactDuration := 0,
    createdAt := goZeroTime, resolvedAt := resolvedAtOf none, pages := [] }

/-- A page whose RFC3339 creation timestamp parses to one minute before the
Go zero time value (for example the parseable instant 0000-12-31T23:59:00Z,
which precedes January 1 of year 1). -/
def preZeroPage : Page :=
  { title := "early page", link := "https://pd.example.com/p0",
    createdAt := -minuteNs 1, incidentIDs := [], responders := [], notes := [] }

/-- C2 as stated is false: the correlation loop links a page created before
the zero time value to an incident whose resolution timestamp is absent
(left at the zero value). -/
theorem open_incident_links_no_pages_counterexample :
    unresolvedIncident.resolvedAt = goZeroTime ∧
    (correlate [preZeroPage] [unresolvedIncident]).2.map (fun i => i.pages) =
      [[0]] := by
  constructor
  · rfl
  · rw [correlate_spec]
    decide

theorem open_incident_links_no_pages_witness :
    ∃ i', (correlate scenarioPages [unresolvedIncident]).2[0]? = some i' ∧
      i'.pages = [] := by
  refine ⟨incidentAfter scenarioPages unresolvedIncident, by rw [correlate_spec]; rfl, ?_⟩
  exact open_incident_links_no_pages scenarioPages [unresolvedIncident] 0
    (by decide) (by decide) (by decide) (by decide) _ (by rw [correlate_spec]; rfl)

/-! Claim C10: the two sides of the many-to-many linkage stay symmetric. -/

theorem nodup_map_mem_inj {α β : Type _} {f : α → β} {l : List α}
    (h : (l.map f).Nodup) {a b : α} (ha : a ∈ l) (hb : b ∈ l)
    (hf : f a = f b) : a = b := by
  induction l with
  | nil => cases ha
  | cons x xs ih =>
    rw [List.map_cons, List.nodup_cons] at h
    rcases h with ⟨hx, hxs⟩
    rcases List.mem_cons.mp ha with ha1 | ha2 <;>
      rcases List.mem_cons.mp hb with hb1 | hb2
    · rw [ha1, hb1]
    · subst ha1
      exact absurd (hf ▸ List.mem_map_of_mem f hb2) hx
    · subst hb1
      exact absurd (hf ▸ List.mem_map_of_mem f ha2) hx
    · exact ih hxs ha2 hb2

/-- C10: after the correlation loop, page j is a member of incident k's
linked-pages collection if and only if incident k's id is a member of page
j's linked-incident-ID collection; both sides of the many-to-many linkage
are updated together (assuming the fetched incident ids are distinct and
the fetched records start with empty link collections, as the fetch stage
produces them). -/
theorem correlation_link_symmetry (ps : List Page) (is : List Incident)
    (hinitP : ∀ p ∈ ps, p.incidentIDs = [])
    (hinitI : ∀ i ∈ is, i.pages = [])
    (hids : (is.map (fun i => i.id)).Nodup)
    (j k : Nat) (p' : Page) (i' : Incident)
    (hp : (correlate ps is).1[j]? = some p')
    (hi : (correlate ps is).2[k]? = some i') :
    j ∈ i'.pages ↔ i'.id ∈ p'.incidentIDs := by
  rcases correlate_snd_getElem ps is k i' hi with ⟨hk2, hei⟩
  rcases correlate_fst_getElem ps is j p' hp with ⟨hj2, hep⟩
  subst hei
  subst hep
  rw [List.get_eq_getElem, List.get_eq_getElem]
  have hiid : (incidentAfter ps is[k]).id = is[k].id := rfl
  rw [hiid,
    mem_incidentAfter_pages ps is[k] j (hinitI is[k] (List.getElem_mem hk2)),
    mem_pageAfter_ids is ps[j] is[k].id (hinitP ps[j] (List.getElem_mem hj2))]
  constructor
  · rintro ⟨p, hq, hc⟩
    rw [List.getElem?_eq_getElem hj2] at hq
    cases hq
    exact ⟨is[k], List.getElem_mem hk2, hc, rfl⟩
  · rintro ⟨i, hm, hc, he⟩
    have : i = is[k] := nodup_map_mem_inj hids hm (List.getElem_mem hk2) he
    subst this
    exact ⟨ps[j], List.getElem?_eq_getElem hj2, hc⟩

theorem correlation_link_symmetry_witness :
    (0 ∈ (incidentAfter scenarioPages scenarioIncident).pages ↔
      (incidentAfter scenarioPages scenarioIncident).id ∈
        (pageAfter [scenarioIncident] (scenarioPage 590)).incidentIDs) ∧
    0 ∈ (incidentAfter scenarioPages scenarioIncident).pages := by
  constructor
  · exact correlation_link_symmetry scenarioPages [scenarioIncident]
      (by decide) (by decide) (by decide) 0 0
      (pageAfter [scenarioIncident] (scenarioPage 590))
      (incidentAfter scenarioPages scenarioIncident)
      (by rw [correlate_spec]; rfl) (by rw [correlate_spec]; rfl)
  · decide

/-! Claim C9: the Other Pages section. -/

/-- The selection of the trailing Other Pages loop of Generate
(generate.go): a page is rendered there when its incidentIDs collection is
still empty after correlation (pages with a non-empty collection are
skipped by the continue), preserving fetch order. -/
def otherPages (pages : List Page) : List Page :=
  pages.filter (fun p => p.incidentIDs.isEmpty)

theorem filter_isEmpty_eq_all_not {α : Type _} (l : List α) (p : α → Bool) :
    (l.filter p).isEmpty = l.all (fun a => ! p a) := by
  induction l with
  | nil => rfl
  | cons x xs ih =>
    cases hx : p x <;> simp [List.filter_cons, hx, ih]

/-- C9: after correlation, the Other Pages selection consists of exactly
the fetched pages matching no incident's window, in fetch order; and a page
whose window condition holds for an incident is a member of that incident's
rendered page list. -/
theorem other_pages_exactly_unlinked (ps : List Page) (is : List Incident)
    (hinitP : ∀ p ∈ ps, p.incidentIDs = [])
    (hinitI : ∀ i ∈ is, i.pages = []) :
    otherPages (correlate ps is).1 =
      ps.filter (fun p => is.all (fun i => ! linkCond p i)) ∧
    (∀ (k : Nat) (i' : Incident), (correlate ps is).2[k]? = some i' →
      ∀ (j : Nat) (p : Page), ps[j]? = some p → linkCond p i' = true →
        j ∈ i'.pages) := by
  constructor
  · rw [correlate_spec]
    unfold otherPages
    rw [List.filter_map]
    have hcg : ∀ p ∈ ps,
        ((fun q => q.incidentIDs.isEmpty) ∘ pageAfter is) p =
          is.all (fun i => ! linkCond p i) := by
      intro p hm
      show (pageAfter is p).incidentIDs.isEmpty = _
      unfold pageAfter
      simp only [hinitP p hm, List.nil_append]
      rw [← filter_isEmpty_eq_all_not]
      cases hflt : (is.filter (fun i => linkCond p i)) <;> simp [hflt]
    rw [List.filter_congr hcg]
    have hone : ∀ p ∈ ps.filter (fun p => is.all (fun i => ! linkCond p i)),
        pageAfter is p = p := by
      intro p hm
      have hall := (List.mem_filter.mp hm).2
      unfold pageAfter
      have hflt : is.filter (fun i => linkCond p i) = [] := by
        rw [List.filter_eq_nil_iff]
        intro i him
        have h2 := (List.all_eq_true.mp hall) i him
        simp only [Bool.not_eq_eq_eq_not, Bool.not_true] at h2
        simp [h2]
      rw [hflt]
      show { p with incidentIDs := p.incidentIDs ++ [] } = p
      rw [List.append_nil]
    rw [List.map_congr_left hone, List.map_id']
  · intro k i' hi j p hq hc
    rcases correlate_snd_getElem ps is k i' hi with ⟨hk2, hei⟩
    subst hei
    rw [List.get_eq_getElem] at hc ⊢
    rw [mem_incidentAfter_pages ps is[k] j
      (hinitI is[k] (List.getElem_mem hk2))]
    refine ⟨p, hq, ?_⟩
    rw [← linkCond_set_pages p is[k]
      (is[k].pages ++ (List.range ps.length).filter (matchesAt ps is[k]))]
    exact hc

/-- Overlapping-windows scenario: two incidents for the same team whose
windows both contain minute 630, one page inside both windows and one page
after both. -/
def overlapIncidents : List Incident :=
  [scenarioIncident,
   { scenarioIncident with
     id := "#incident-2",
     createdAt := minuteNs 630,
     resolvedAt := minuteNs 690 }]

/-- Pages for the overlap scenario: minute 632 is inside both windows,
minute 800 is outside both. -/
def overlapPages : List Page := [scenarioPage 632, scenarioPage 800]

theorem other_pages_exactly_unlinked_witness :
    otherPages (correlate overlapPages overlapIncidents).1 =
      [scenarioPage 800] ∧
    0 ∈ (incidentAfter overlapPages overlapIncidents[0]).pages ∧
    0 ∈ (incidentAfter overlapPages overlapIncidents[1]).pages := by
  have h := other_pages_exactly_unlinked overlapPages overlapIncidents
    (by decide) (by decide)
  refine ⟨?_, ?_, ?_⟩
  · rw [h.1]
    decide
  · exact h.2 0 (incidentAfter overlapPages overlapIncidents[0])
      (by rw [correlate_spec]; rfl) 0 (scenarioPage 632) (by decide) (by decide)
  · exact h.2 1 (incidentAfter overlapPages overlapIncidents[1])
      (by rw [correlate_spec]; rfl) 0 (scenarioPage 632) (by decide) (by decide)

/-! Claim C7: ordering of the incident list. -/

/-- The comparison closure handed to sort.Slice by fetchIncidents
(search_incidents.go): incident a was created strictly before incident b. -/
def byCreatedAt (a b : Incident) : Bool := decide (a.createdAt < b.createdAt)

/-- The sort.Slice call of fetchIncidents, modelled by the documented
contract of Go's sort.Slice: the output is a permutation of the input in
which no element compares (strictly) less than an element before it.
sort.Slice, unlike sort.SliceStable, is documented as not guaranteed to be
stable, so any sorted permutation is an admissible outcome. -/
def SortSliceOutcome (l out : List Incident) : Prop :=
  l.Perm out ∧ out.Pairwise (fun a b => byCreatedAt b a = false)

/-- C7 (amended): the incident list consumed downstream is in non-decreasing
creation-time order: for every admissible outcome of the sort.Slice call in
fetchIncidents, the incident records traversed by the report loop after
correlation carry non-decreasing creation timestamps. Stability is not part
of the contract, so ties need not keep fetch order. -/
theorem incidents_sorted_nondecreasing (l out : List Incident) (ps : List Page)
    (hs : SortSliceOutcome l out) :
    ((correlate ps out).2.map (fun i => i.createdAt)).Pairwise
      (fun a b => a ≤ b) := by
  rcases hs with ⟨-, hsort⟩
  rw [correlate_spec]
  simp only [List.map_map]
  rw [List.pairwise_map]
  refine hsort.imp ?_
  intro a b h
  unfold byCreatedAt at h
  simp only [decide_eq_false_iff_not, Int.not_lt] at h
  exact h

/-- The second incident of the overlap scenario, created at minute 630 and
resolved at minute 690. -/
def lateIncident : Incident :=
  { scenarioIncident with
    id := "#incident-2",
    createdAt := minuteNs 630,
    resolvedAt := minuteNs 690 }

theorem incidents_sorted_nondecreasing_witness :
    ((correlate overlapPages overlapIncidents).2.map (fun i => i.createdAt)).Pairwise
      (fun a b => a ≤ b) :=
  incidents_sorted_nondecreasing [lateIncident, scenarioIncident]
    overlapIncidents overlapPages
    ⟨List.Perm.swap scenarioIncident lateIncident [], by decide⟩

/-- Two incidents with equal creation timestamps and distinct identities. -/
def tieIncidentA : Incident := { scenarioIncident with id := "#incident-3" }

/-- Second tied incident. -/
def tieIncidentB : Incident := { scenarioIncident with id := "#incident-4" }

/-- C7's stability part is false on the code: with two equal-creation-time
incidents fetched in the order A, B, the reversed order B, A is an
admissible outcome of the unstable sort.Slice call (a sorted permutation),
so incidents with equal creation timestamps need not keep their fetch
order. -/
theorem incidents_sort_not_stable_counterexample :
    SortSliceOutcome [tieIncidentA, tieIncidentB] [tieIncidentB, tieIncidentA] ∧
    tieIncidentA.createdAt = tieIncidentB.createdAt ∧
    [tieIncidentB, tieIncidentA] ≠ [tieIncidentA, tieIncidentB] := by
  refine ⟨⟨List.Perm.swap tieIncidentB tieIncidentA [], by decide⟩, rfl, by decide⟩

/-! Claims C6: the tag filter.  The loosely typed alert body is modelled as
an association list of string keys to loosely typed values. -/

/-- A loosely typed value of a PagerDuty alert body entry: a string, a
nested string-keyed map, or any other shape. -/
inductive GoVal where
  | str : String → GoVal
  | table : List (String × GoVal) → GoVal
  | other : GoVal

/-- Lookup of a key in a Go map modelled as an association list. -/
def goLookup (m : List (String × GoVal)) (k : String) : Option GoVal :=
  match m with
  | [] => none
  | e :: rest => if e.1 = k then some e.2 else goLookup rest k

/-- A PagerDuty alert: only its loosely typed body matters here. -/
structure IncidentAlert where
  body : List (String × GoVal)

/-- ASCII whitespace, as trimmed by strings.TrimSpace. -/
def isSpaceChar (c : Char) : Bool :=
  c = ' ' || c = '\t' || c = '\n' || c = '\r' || c = '\x0b' || c = '\x0c'

/-- Go strings.TrimSpace on ASCII whitespace. -/
def trimSpaceChars (s : List Char) : List Char :=
  ((s.dropWhile isSpaceChar).reverse.dropWhile isSpaceChar).reverse

/-- Go strings.Split with a one-character separator: splits at every
occurrence, keeping empty fields, and yields one (possibly empty) field
even for the empty string. -/
def splitOnCharAux (c : Char) (cur : List Char) : List Char → List (List Char)
  | [] => [cur.reverse]
  | x :: rest =>
    if x = c then cur.reverse :: splitOnCharAux c [] rest
    else splitOnCharAux c (x :: cur) rest

/-- getTagsFromPagerdutyAlert (fetch_pages.go): probe the alert body for a
details map holding a string under the tags key; a missing key or an
unexpected shape yields no tag set (nil, i.e. none).  On success the string
is split on commas and every token is trimmed of surrounding whitespace. -/
def getTagsFromPagerdutyAlert (a : IncidentAlert) : Option (List String) :=
  match goLookup a.body "details" with
  | some (GoVal.table dm) =>
    match goLookup dm "tags" with
    | some (GoVal.str ts) =>
      some ((splitOnCharAux ',' [] ts.data).map (fun tk => String.mk (trimSpaceChars tk)))
    | _ => none
  | _ => none

/-- pagerdutyIncidentMatchesTags (fetch_pages.go), applied to the alerts
the client returns for the page: an empty (or nil) filter list matches
immediately, before any alert is consulted; otherwise some single alert
must yield a tag set containing every filter, and alerts without a tag set
are skipped. -/
def pagerdutyIncidentMatchesTags (alerts : List IncidentAlert)
    (tagFilters : List String) : Bool :=
  if tagFilters.isEmpty then true
  else alerts.any (fun a =>
    match getTagsFromPagerdutyAlert a with
    | none => false
    | some alertTags => tagFilters.all (fun f => alertTags.contains f))

/-- C6: the tag filter admits every page when the filter set is empty; when
it is non-empty it admits a page iff at least one single alert yields a
parseable tag set that contains every required tag; and an alert whose
details payload is missing or of the wrong shape contributes no tags and is
skipped rather than failing. -/
theorem tag_filter_spec (alerts : List IncidentAlert) (tagFilters : List String) :
    (tagFilters = [] → pagerdutyIncidentMatchesTags alerts tagFilters = true) ∧
    (tagFilters ≠ [] →
      (pagerdutyIncidentMatchesTags alerts tagFilters = true ↔
        ∃ a ∈ alerts, ∃ tags, getTagsFromPagerdutyAlert a = some tags ∧
          ∀ f ∈ tagFilters, f ∈ tags)) ∧
    (∀ a, getTagsFromPagerdutyAlert a = none →
      ∀ rest, pagerdutyIncidentMatchesTags (a :: rest) tagFilters =
        pagerdutyIncidentMatchesTags rest tagFilters) := by
  refine ⟨?_, ?_, ?_⟩
  · intro h
    subst h
    rfl
  · intro h
    unfold pagerdutyIncidentMatchesTags
    rw [if_neg (by simp [h]), List.any_eq_true]
    constructor
    · rintro ⟨a, ha, hf⟩
      cases hg : getTagsFromPagerdutyAlert a with
      | none =>
        simp only [hg] at hf
        exact absurd hf (by decide)
      | some tags =>
        simp only [hg] at hf
        refine ⟨a, ha, tags, hg, ?_⟩
        intro f hfm
        have h2 := (List.all_eq_true.mp hf) f hfm
        rw [List.contains_eq_any_beq, List.any_eq_true] at h2
        rcases h2 with ⟨x, hx, he⟩
        have hfx : f = x := beq_iff_eq.mp he
        rw [hfx]
        exact hx
    · rintro ⟨a, ha, tags, hg, hall⟩
      refine ⟨a, ha, ?_⟩
      simp only [hg]
      rw [List.all_eq_true]
      intro f hfm
      rw [List.contains_eq_any_beq, List.any_eq_true]
      exact ⟨f, hall f hfm, beq_self_eq_true f⟩
  · intro a hg rest
    by_cases he : tagFilters.isEmpty = true
    · unfold pagerdutyIncidentMatchesTags
      rw [if_pos he, if_pos he]
    · unfold pagerdutyIncidentMatchesTags
      rw [if_neg he, if_neg he, List.any_cons]
      simp only [hg, Bool.false_or]

/-- An alert carrying the tag string under details/tags. -/
def taggedAlert : IncidentAlert :=
  { body := [("details",
      GoVal.table [("tags", GoVal.str "team:pager, env:prod")])] }

/-- An alert whose details payload is a bare string, not a map. -/
def malformedAlert : IncidentAlert :=
  { body := [("details", GoVal.str "oops")] }

theorem tag_filter_spec_witness :
    pagerdutyIncidentMatchesTags [malformedAlert, taggedAlert]
      ["team:pager", "env:prod"] = true ∧
    pagerdutyIncidentMatchesTags [malformedAlert] [] = true := by
  constructor
  · refine ((tag_filter_spec [malformedAlert, taggedAlert]
      ["team:pager", "env:prod"]).2.1 (by decide)).mpr
      ⟨taggedAlert, List.mem_cons_of_mem malformedAlert (List.mem_cons_self taggedAlert []),
       ["team:pager", "env:prod"], by decide, by decide⟩
  · exact (tag_filter_spec [malformedAlert] []).1 rfl

/-! Claims C3, C4: title normalization. -/

/-- Replacement of every non-overlapping occurrence of a literal pattern,
scanning left to right: the behavior of Regexp.ReplaceAllString for
patterns without regex metacharacters (all patterns used by the claims).
The fuel argument bounds the recursion by the length of the scanned text;
the wrapper below supplies enough fuel, and an empty pattern falls through
to the no-match branch (the model covers nonempty literal patterns). -/
def replaceAllCharsFuel (pat repl : List Char) : Nat → List Char → List Char
  | 0, s => s
  | _ + 1, [] => []
  | fuel + 1, x :: rest =>
    if pat ≠ [] ∧ pat.isPrefixOf (x :: rest) then
      repl ++ replaceAllCharsFuel pat repl fuel ((x :: rest).drop pat.length)
    else
      x :: replaceAllCharsFuel pat repl fuel rest

/-- Literal replace-all on strings (Regexp.ReplaceAllString for a literal
pattern). -/
def replaceAllLit (s pat repl : String) : String :=
  String.mk (replaceAllCharsFuel pat.data repl.data s.data.length s.data)

/-- The title-replacement loop of fetchPages (fetch_pages.go): each rule of
the sequence transforms the cumulative result of the previous rules. The
sequence the loop actually receives is an iteration order of the Go map
produced by getRegexReplace, i.e. some permutation of the declared rules. -/
def applyReplaceRules (rules : List (String × String)) (title : String) : String :=
  rules.foldl (fun t r => replaceAllLit t r.1 r.2) title

/-- strings.Trim(r, "/") of getRegexReplace: remove every leading and
trailing slash. -/
def trimSlashes (s : List Char) : List Char :=
  ((s.dropWhile (fun c => c = '/')).reverse.dropWhile (fun c => c = '/')).reverse

/-- strings.SplitN(s, "/", 2) of getRegexReplace: the part before the first
slash, and the remainder when a slash occurs. -/
def splitNFirstSlash : List Char → List Char × Option (List Char)
  | [] => ([], none)
  | x :: rest =>
    if x = '/' then ([], some rest)
    else
      let r := splitNFirstSlash rest
      (x :: r.1, r.2)

/-- The parsing of one replace flag by getRegexReplace (fetch_pages.go):
trim surrounding slashes, split at the first remaining slash into the
pattern and the replacement (empty replacement when no slash remains). -/
def parseReplaceRule (r : String) : String × String :=
  let t := splitNFirstSlash (trimSlashes r.data)
  (String.mk t.1, String.mk (t.2.getD []))

/-- The rules parsed by getRegexReplace (fetch_pages.go) in declared order.
The source stores them in a Go map keyed by compiled-regexp pointers
(map from pointer to string), so the iteration order seen by the title loop
is an unspecified permutation of this list, not necessarily this order. -/
def getRegexReplace (replace : List String) : List (String × String) :=
  replace.map parseReplaceRule

/-- C3 is broken by the code: the declared rules /A/B, /B/C applied to the
title A yield C in declared order, but the reversed order, which is an
admissible iteration order of the Go map storing the rules, yields B; since
the map is unordered, the normalization is not guaranteed to apply the
rules in declared order to the cumulative result. -/
theorem replace_rules_order_dependent :
    getRegexReplace ["/A/B", "/B/C"] = [("A", "B"), ("B", "C")] ∧
    applyReplaceRules [("A", "B"), ("B", "C")] "A" = "C" ∧
    [("B", "C"), ("A", "B")].Perm (getRegexReplace ["/A/B", "/B/C"]) ∧
    applyReplaceRules [("B", "C"), ("A", "B")] "A" = "B" := by
  refine ⟨by decide, by decide, ?_, by decide⟩
  have h : getRegexReplace ["/A/B", "/B/C"] = [("A", "B"), ("B", "C")] := by decide
  rw [h]
  exact List.Perm.swap ("A", "B") ("B", "C") []

/-- The normalized title computed by the fetch loop of fetchPages
(fetch_pages.go, the loop over the replace rules). -/
def normalizedTitle (rules : List (String × String)) (raw : String) : String :=
  applyReplaceRules rules raw

/-- The page record constructed by fetchPages (fetch_pages.go): the stored
title field is the raw p.Title of the PagerDuty payload, not the
normalized title computed a few lines above in the same loop body. -/
def fetchedPage (rawTitle htmlURL : String) (createdAt : Int)
    (responders : List String) (notes : List PageNote) : Page :=
  { title := rawTitle, link := htmlURL, createdAt := createdAt,
    incidentIDs := [], responders := responders, notes := notes }

/-- C4 is broken by the code: with raw title A and the single declared rule
/A/B, the page stores the raw title A while the normalized title is B, so
the stored (and rendered) title is not the post-normalization title. -/
theorem stored_title_is_raw_not_normalized :
    (fetchedPage "A" "https://pd.example.com/p" 0 [] []).title = "A" ∧
    normalizedTitle (getRegexReplace ["/A/B"]) "A" = "B" ∧
    ¬ (fetchedPage "A" "https://pd.example.com/p" 0 [] []).title =
      normalizedTitle (getRegexReplace ["/A/B"]) "A" := by
  refine ⟨rfl, by decide, by decide⟩

/-! Claim C5: when the replace rules are validated. -/

/-- The operations Generate performs in program order, as far as
configuration validation and network activity are concerned (generate.go
and fetch_pages.go): date parsing, the Datadog incident search inside
fetchIncidents, then inside fetchPages the compilation of the replace
rules (getRegexReplace, whose regexp.MustCompile aborts the run on an
invalid pattern), the PagerDuty team search and the PagerDuty incident
listing. -/
inductive GenStep where
  | parseDates
  | datadogSearchIncidents
  | compileReplaceRules
  | pagerdutyListTeams
  | pagerdutyListIncidents
deriving DecidableEq

/-- The order of the relevant steps of Generate: dates are parsed, then
fetchIncidents performs the Datadog search, then fetchPages compiles the
replace rules before its PagerDuty calls. -/
def generateSteps : List GenStep :=
  [GenStep.parseDates, GenStep.datadogSearchIncidents,
   GenStep.compileReplaceRules, GenStep.pagerdutyListTeams,
   GenStep.pagerdutyListIncidents]

/-- The steps that perform network activity. -/
def isNetworkStep : GenStep → Bool
  | GenStep.datadogSearchIncidents => true
  | GenStep.pagerdutyListTeams => true
  | GenStep.pagerdutyListIncidents => true
  | _ => false

/-- C5 is false as stated: the replace rules are compiled only inside
fetchPages, after fetchIncidents has already performed the Datadog network
search, so an invalid pattern is not reported before all network
activity. -/
theorem replace_validation_after_datadog_fetch :
    isNetworkStep GenStep.datadogSearchIncidents = true ∧
    generateSteps.indexOf GenStep.datadogSearchIncidents <
      generateSteps.indexOf GenStep.compileReplaceRules := by
  decide

/-- C5 (amended): an invalid replace pattern is never silently skipped
(regexp.MustCompile aborts the run), and the compilation precedes every
PagerDuty network call of the run; it follows the Datadog incident fetch,
however, so it is not before all network activity. -/
theorem replace_validation_before_pagerduty (s : GenStep)
    (hs : isNetworkStep s = true) (hd : ¬ s = GenStep.datadogSearchIncidents) :
    generateSteps.indexOf GenStep.compileReplaceRules <
      generateSteps.indexOf s := by
  cases s <;> first | exact absurd rfl hd | (revert hs; decide)

theorem replace_validation_before_pagerduty_witness :
    generateSteps.indexOf GenStep.compileReplaceRules <
      generateSteps.indexOf GenStep.pagerdutyListTeams :=
  replace_validation_before_pagerduty GenStep.pagerdutyListTeams
    (by decide) (by decide)

/-! Claim C8: the front-matter round trip.  The title regular expression of
pruneMarkdownTitle is modelled directly: its only variable part, the greedy
dot-star capture group, cannot cross a newline, so a match at a position is
the literal prefix, the remainder of that line, and the literal closer. -/

/-- The literal prefix of the title pattern of pruneMarkdownTitle
(upload_report.go). -/
def titlePat : List Char := ("---\ntitle: ").data

/-- The literal closer of the title pattern. -/
def titleCloser : List Char := ("\n---\n").data

/-- One attempted match of the pattern at the head of s: the literal
prefix, then the capture group, which is exactly the remainder of the line
(the greedy dot does not match a newline, and backtracking to a shorter
group would place a non-newline character against the literal newline of
the closer), then the closer. -/
def matchTitleAt (s : List Char) : Option (List Char) :=
  if titlePat.isPrefixOf s then
    if titleCloser.isPrefixOf
        ((s.drop titlePat.length).drop
          ((s.drop titlePat.length).takeWhile (fun c => decide (¬ c = '\n'))).length) then
      some ((s.drop titlePat.length).takeWhile (fun c => decide (¬ c = '\n')))
    else none
  else none

/-- The leftmost match of the title pattern (FindStringSubmatch): scan the
positions left to right and return the first capture group found. -/
def findTitleGroup : List Char → Option (List Char)
  | [] => none
  | c :: rest =>
    match matchTitleAt (c :: rest) with
    | some g => some g
    | none => findTitleGroup rest

/-- The title component computed by pruneMarkdownTitle (upload_report.go):
the capture group of the leftmost match, or the empty string when the
pattern does not match anywhere.  (The source also returns the document
with every match removed; the claim concerns the extracted title.) -/
def pruneMarkdownTitleOf (content : String) : String :=
  match findTitleGroup content.data with
  | some g => String.mk g
  | none => ""

/-- The front-matter assembly of Generate (generate.go): the three writes
of the delimiter line, the title line and the delimiter line, then the
rendered markdown body. -/
def assembleReport (title body : String) : String :=
  "---\n" ++ ("title: " ++ title ++ "\n") ++ "---\n" ++ body

theorem takeWhile_append_stop (p : Char → Bool) (l1 : List Char) (c : Char)
    (l2 : List Char) (h1 : ∀ x ∈ l1, p x = true) (hc : p c = false) :
    (l1 ++ c :: l2).takeWhile p = l1 := by
  induction l1 with
  | nil =>
    rw [List.nil_append, List.takeWhile_cons, hc, if_neg (by decide)]
  | cons x xs ih =>
    rw [List.cons_append, List.takeWhile_cons, h1 x (List.mem_cons_self x xs),
      ih (fun y hy => h1 y (List.mem_cons_of_mem x hy)), if_pos rfl]

theorem findTitleGroup_of_matchHead {s g : List Char}
    (h : matchTitleAt s = some g) : findTitleGroup s = some g := by
  cases s with
  | nil =>
    rw [matchTitleAt, if_neg (by decide)] at h
    cases h
  | cons c rest =>
    rw [findTitleGroup, h]

/-- C8 (amended): for every title that contains no newline character,
applying the extraction rule of pruneMarkdownTitle to the document
assembled by Generate returns exactly the written title, whatever the
body. -/
theorem front_matter_title_round_trip (t body : String)
    (ht : ∀ c ∈ t.data, ¬ c = '\n') :
    pruneMarkdownTitleOf (assembleReport t body) = t := by
  have hdata : (assembleReport t body).data =
      titlePat ++ (t.data ++ '\n' :: ("---\n" ++ body).data) := by
    show ("---\n".data ++ ("title: ".data ++ t.data ++ "\n".data) ++ "---\n".data
        ++ body.data : List Char) = _
    simp [titlePat, List.append_assoc]
  have htake : (t.data ++ '\n' :: ("---\n" ++ body).data).takeWhile
      (fun c => decide (¬ c = '\n')) = t.data := by
    refine takeWhile_append_stop _ _ _ _ ?_ (by decide)
    intro x hx
    exact decide_eq_true (ht x hx)
  have hmatch : matchTitleAt ((assembleReport t body).data) = some t.data := by
    rw [hdata]
    unfold matchTitleAt
    rw [if_pos ?hpre]
    case hpre =>
      rw [List.isPrefixOf_iff_prefix]
      exact List.prefix_append _ _
    rw [List.drop_left, htake, List.drop_left' (by rfl), if_pos ?hcl]
    case hcl =>
      rw [List.isPrefixOf_iff_prefix]
      show titleCloser <+: '\n' :: ("---\n".data ++ body.data)
      have hsh : ('\n' :: ("---\n".data ++ body.data) : List Char) =
          titleCloser ++ body.data := by
        simp [titleCloser]
      rw [hsh]
      exact List.prefix_append _ _
  have hfind : findTitleGroup ((assembleReport t body).data) = some t.data :=
    findTitleGroup_of_matchHead hmatch
  unfold pruneMarkdownTitleOf
  rw [hfind]

theorem front_matter_title_round_trip_witness :
    pruneMarkdownTitleOf
      (assembleReport "Team A On-Call Report 2024-01-02" "report body") =
      "Team A On-Call Report 2024-01-02" :=
  front_matter_title_round_trip "Team A On-Call Report 2024-01-02"
    "report body" (by decide)

/-! The generated title and the rendered body, needed to exhibit a title the
assembler actually writes on which the round trip fails. -/

/-- Go strings.isSeparator restricted to ASCII: anything that is not a
letter, a digit or an underscore. -/
def isSeparatorChar (c : Char) : Bool :=
  ! (c.isAlpha || c.isDigit || c = '_')

/-- The rune mapping of Go strings.Title (ASCII model): a letter following
a separator (the scan starts in separator state) is upper-cased. -/
def stringsTitleChars : Char → List Char → List Char
  | _, [] => []
  | prev, c :: rest =>
    (if isSeparatorChar prev then c.toUpper else c) :: stringsTitleChars c rest

/-- Go strings.Title as used for the report title (generate.go), restricted
to ASCII runes. -/
def stringsTitle (s : String) : String :=
  String.mk (stringsTitleChars ' ' s.data)

/-- The fill-out marker of the report template (generate.go). -/
def filloutPlaceholder : String := "  _TODO: please fill out_"

/-- strings.Repeat. -/
def strRepeat (s : String) (n : Nat) : String := String.join (List.replicate n s)

/-- markdown.heading (markdown.go). -/
def mdHeading (level : Nat) (header : String) : String :=
  strRepeat "#" level ++ " " ++ header ++ "\n\n"

/-- markdown.para (markdown.go). -/
def mdPara (p : String) : String := p ++ "\n\n"

/-- markdown.br (markdown.go). -/
def mdBr : String := "\n"

/-- markdown.unordered (markdown.go). -/
def mdUnordered (level : Nat) (li : String) : String :=
  strRepeat "  " (level - 1) ++ "- " ++ li ++ "\n"

/-- link (markdown.go): square brackets in the description are replaced by
pipes before the markdown link is formed. -/
def mdLink (desc url : String) : String :=
  "[" ++ replaceAllLit (replaceAllLit desc "[" "|") "]" "|" ++ "](" ++ url ++ ")"

/-- One note line of the Other Pages section (generate.go). -/
def renderNote (n : PageNote) : String :=
  if ¬ n.userEmail = "" then
    mdUnordered 3 ("**" ++ n.userEmail ++ "**: " ++ n.content)
  else mdUnordered 3 n.content

/-- One entry of the Other Pages section (generate.go). -/
def renderOtherPage (fmtTime : Int → String) (p : Page) : String :=
  mdUnordered 1 (mdLink (fmtTime p.createdAt ++ " " ++ p.title) p.link)
  ++ mdUnordered 2 ("**Ack\x27ed by**: " ++ String.intercalate ", " p.responders)
  ++ (if ¬ p.notes.length = 0 then
        mdUnordered 2 "**Notes**:"
        ++ String.join (p.notes.map renderNote) ++ mdBr
      else "")
  ++ mdUnordered 2 ("**Action taken**: " ++ filloutPlaceholder)
  ++ mdUnordered 2 ("**Follow-up**: " ++ filloutPlaceholder)

/-- One incident section of the report (generate.go).  The local-time and
duration formatters are parameters of the model (they depend on the process
time zone); the store holds the correlated pages the incident's page
pointers index into. -/
def renderIncident (fmtTime : Int → String) (fmtDuration : Int → String)
    (store : List Page) (i : Incident) : String :=
  mdHeading 3 (mdLink (i.sev ++ " | " ++ i.id ++ " | " ++ i.title ++ " | "
      ++ fmtTime i.createdAt) i.link)
  ++ mdHeading 4 ("IC: " ++ i.commanderEmail)
  ++ mdHeading 4 "Root cause"
  ++ mdPara ("  " ++ i.rootCause)
  ++ mdHeading 4 "Summary"
  ++ mdPara ("  " ++ i.summary)
  ++ (if ¬ i.customerImpactScope.length = 0 then
        mdHeading 4 ("Customer impact (" ++ fmtDuration i.customerImpactDuration ++ ")")
        ++ mdPara ("  " ++ i.customerImpactScope)
      else "")
  ++ mdHeading 4 "PagerDuty pages"
  ++ String.join ((i.pages.filterMap (fun j => store[j]?)).map (fun p =>
        mdUnordered 1 (mdLink (fmtTime p.createdAt ++ " " ++ p.title) p.link)))
  ++ mdBr
  ++ mdHeading 4 "Action taken" ++ mdPara filloutPlaceholder
  ++ mdHeading 4 "Follow-up"
  ++ mdUnordered 1 "**Happened before/common theme**" ++ mdPara filloutPlaceholder
  ++ mdUnordered 1 "**How can we prevent it**" ++ mdPara filloutPlaceholder
  ++ mdUnordered 1 "**Runbooks**" ++ mdPara filloutPlaceholder
  ++ mdUnordered 1 "**Related PRs**" ++ mdPara filloutPlaceholder
  ++ mdUnordered 1 "**Action items**" ++ mdPara filloutPlaceholder

/-- The markdown body built by Generate (generate.go): the summary line,
one section per incident in list order, the Other Pages heading and the
entries for the pages left unlinked by the correlation. -/
def renderBody (since untl : String) (fmtTime fmtDuration : Int → String)
    (pages : List Page) (incidents : List Incident) : String :=
  mdPara ("Report for " ++ since ++ " - " ++ untl ++ ": total incidents - "
      ++ toString incidents.length ++ ", total pages - " ++ toString pages.length)
  ++ String.join (incidents.map (renderIncident fmtTime fmtDuration pages))
  ++ mdHeading 3 "Other Pages"
  ++ String.join ((otherPages pages).map (renderOtherPage fmtTime))

/-- The full document Generate returns (generate.go): the front matter with
the title built by strings.Title from the team names and the end date, then
the body rendered from the correlated state. -/
def generateDoc (teams : List String) (since untl : String)
    (fmtTime fmtDuration : Int → String)
    (ps : List Page) (is : List Incident) : String :=
  assembleReport
    (stringsTitle (String.intercalate ", " teams ++ " On-Call Report " ++ untl))
    (renderBody since untl fmtTime fmtDuration
      (correlate ps is).1 (correlate ps is).2)

/-- C8 is false as stated: a run with the team name a(newline)b writes the
title A(newline)B On-Call Report 2024-01-02 into the front matter, and the
extraction rule, whose capture group cannot cross the newline, fails to
match and returns the empty string instead of the written title. -/
theorem front_matter_title_round_trip_counterexample :
    stringsTitle (String.intercalate ", " ["a\nb"] ++ " On-Call Report "
        ++ "2024-01-02") = "A\nB On-Call Report 2024-01-02" ∧
    pruneMarkdownTitleOf
      (generateDoc ["a\nb"] "2024-01-01" "2024-01-02"
        (fun _ => "") (fun _ => "") [] []) = "" ∧
    ¬ ("" = "A\nB On-Call Report 2024-01-02") := by
  refine ⟨by decide, ?_, by decide⟩
  decide

example :
    let p : Page := { title := "t", link := "l", createdAt := 100,
                      incidentIDs := [], responders := [], notes := [] }
    let i : Incident := { id := "#incident-1", title := "", link := "",
                          sev := "", commander := "", commanderEmail := "",
                          rootCause := "", summary := "",
                          customerImpactScope := "",
                          customerImpactDuration := 0,
                          createdAt := 50, resolvedAt := 200, pages := [] }
    correlate [p] [i] =
      ([{ p with incidentIDs := ["#incident-1"] }], [{ i with pages := [0] }]) := by
  decide

end Incidentist
